import Mathlib

/-!
Shallow embedding of `moto/cloudformation/models.py`: the `FakeStack`
lifecycle state machine, its event log, and the `CloudFormationBackend`
registry with its active and deleted stack indexes.

Modelling conventions:
* Python's in-place mutation is modelled by explicit state passing: each
  operation returns the new stack / backend value.
* The external collaborators (`yaml.load`, `json.loads`, `ResourceMap`,
  `OutputMap`, `template_dict.get` on the `Description` key) are parameters gathered
  in the `Ext` structure; their result types are type parameters.
* Python exceptions are modelled with `Except`.  Where the source mutates
  `self` before raising (e.g. `update` appends `UPDATE_IN_PROGRESS` before
  `json.loads` can fail), the error value carries the partially mutated
  stack, matching the object state the exception leaves behind.
* `OrderedDict` / `dict` indexes are insertion-ordered association lists
  over `String` keys; `__setitem__` replaces in place, `pop` removes the
  entry.
* `datetime.utcnow()` and `uuid.uuid4()` (the `timestamp` / `event_id`
  fields of `FakeEvent`) are ambient nondeterminism irrelevant to the
  claims and are not modelled; the random output of `generate_stack_id` is
  modelled by passing the freshly generated id to `create_stack` as an
  explicit argument.
-/

namespace Moto

/-- Association-list lookup: first entry with the given key, like `d[k]` /
`k in d` on a Python dict whose keys are unique. -/
def lookupA {α : Type} (l : List (String × α)) (k : String) : Option α :=
  (l.find? (fun p => p.1 == k)).map (·.2)

/-- `d[k] = v` on an insertion-ordered dict: replace in place if the key is
present, else append. -/
def insertA {α : Type} (l : List (String × α)) (k : String) (v : α) :
    List (String × α) :=
  match l with
  | [] => [(k, v)]
  | (k', v') :: rest =>
    if k' == k then (k, v) :: rest else (k', v') :: insertA rest k v

/-- `d.pop(k, None)`: remove the first entry with the given key, returning
its value and the remaining entries in order; `none` when absent. -/
def popA {α : Type} (l : List (String × α)) (k : String) :
    Option (α × List (String × α)) :=
  match l with
  | [] => none
  | (k', v) :: rest =>
    if k' == k then some (v, rest)
    else (popA rest k).map (fun q => (q.1, (k', v) :: q.2))

/-- Outcome of `yaml.load`: success, a `yaml.parser.ParserError` (the only
exception `_parse_template` catches), or any other yaml exception. -/
inductive YamlLoadResult (TD : Type) : Type where
  | ok (d : TD)
  | parserError
  | otherError
  deriving DecidableEq

/-- Errors raised by the embedded code.  `validationError` is the
repository's own `ValidationError(key)`; `parseError` stands for an
uncaught template-parsing exception (`json.JSONDecodeError` or a
non-`ParserError` yaml failure); `resolutionError` for a failure inside the
external resource/output resolvers; `attributeError` for Python's
`AttributeError` raised by calling a method on `None`. -/
inductive CfnError : Type where
  | validationError (key : String)
  | parseError
  | resolutionError
  | attributeError
  deriving DecidableEq

/-- `True` exactly for the repository's NotFound-style `ValidationError`. -/
def CfnError.isNotFoundStyle : CfnError → Bool
  | .validationError _ => true
  | _ => false

/-- `FakeEvent` from the source, minus the ambient `timestamp` / `event_id`
fields (wall clock and uuid, irrelevant to the claims). -/
structure FakeEvent : Type where
  stack_id : String
  stack_name : String
  logical_resource_id : String
  physical_resource_id : String
  resource_type : String
  resource_status : String
  resource_status_reason : Option String
  resource_properties : Option String
  deriving DecidableEq

/-- External collaborators consumed by the core, at their interface
boundary: the two template parsers, the resource-map constructor /
updater / destructor, the output-map constructor, and dictionary access
for the template's `Description` key.  A `none` result models the
collaborator raising. -/
structure Ext (TD RM OM : Type) : Type where
  yaml_load : String → YamlLoadResult TD
  json_loads : String → Option TD
  resourceMapCreate : String → String → List (String × String) →
    List (String × String) → String → TD → Option RM
  resourceMapUpdate : RM → TD → Option (List (String × String)) → Option RM
  resourceMapDelete : RM → Option RM
  outputMapCreate : RM → TD → Option OM
  getDescription : TD → Option String

/-- The `FakeStack` entity: template text and its parsed form, caller data,
the append-only event log, resolver-owned maps, and the lifecycle status. -/
structure FakeStack (TD RM OM : Type) : Type where
  stack_id : String
  name : String
  template : String
  template_dict : TD
  parameters : List (String × String)
  region_name : String
  notification_arns : List String
  role_arn : Option String
  tags : List (String × String)
  events : List FakeEvent
  description : Option String
  resource_map : RM
  output_map : OM
  status : String

variable {TD RM OM : Type}

/-- `FakeStack._parse_template`: try `yaml.load`; on a
`yaml.parser.ParserError` (and only then) fall back to `json.loads`; any
other failure propagates. -/
def parse_template (ext : Ext TD RM OM) (template : String) :
    Except CfnError TD :=
  match ext.yaml_load template with
  | .ok d => .ok d
  | .parserError =>
    match ext.json_loads template with
    | some d => .ok d
    | none => .error .parseError
  | .otherError => .error .parseError

/-- The stack-scoped event built by `FakeStack._add_stack_event`: logical
resource id is the stack's name, physical id its stack id, resource type
the fixed stack sentinel. -/
def mkStackEvent (sid n resource_status : String)
    (reason props : Option String) : FakeEvent :=
  { stack_id := sid
    stack_name := n
    logical_resource_id := n
    physical_resource_id := sid
    resource_type := "AWS::CloudFormation::Stack"
    resource_status := resource_status
    resource_status_reason := reason
    resource_properties := props }

/-- `FakeStack._add_stack_event`: append one stack-scoped event. -/
def FakeStack.add_stack_event (s : FakeStack TD RM OM)
    (resource_status : String) (reason props : Option String) :
    FakeStack TD RM OM :=
  { s with events :=
      s.events ++ [mkStackEvent s.stack_id s.name resource_status reason props] }

/-- `FakeStack.__init__`: parse the template (yaml, json fallback), record
`CREATE_IN_PROGRESS`, build the resource and output maps through the
resolvers, record `CREATE_COMPLETE`, set the status.  Any failure aborts
construction with no stack value (the caller never registers it). -/
def FakeStack.create (ext : Ext TD RM OM) (stack_id name template : String)
    (parameters : List (String × String)) (region_name : String)
    (notification_arns : Option (List String))
    (tags : Option (List (String × String))) (role_arn : Option String) :
    Except CfnError (FakeStack TD RM OM) :=
  match parse_template ext template with
  | .error e => .error e
  | .ok td =>
    let tgs := tags.getD []
    match ext.resourceMapCreate stack_id name parameters tgs region_name td with
    | none => .error .resolutionError
    | some rm =>
      match ext.outputMapCreate rm td with
      | none => .error .resolutionError
      | some om =>
        .ok { stack_id := stack_id
              name := name
              template := template
              template_dict := td
              parameters := parameters
              region_name := region_name
              notification_arns := notification_arns.getD []
              role_arn := role_arn
              tags := tgs
              events :=
                [mkStackEvent stack_id name "CREATE_IN_PROGRESS"
                   (some "User Initiated") none,
                 mkStackEvent stack_id name "CREATE_COMPLETE" none none]
              description := ext.getDescription td
              resource_map := rm
              output_map := om
              status := "CREATE_COMPLETE" }

/-- `FakeStack.update`: append `UPDATE_IN_PROGRESS`, replace `template`,
parse the new text with `json.loads` only, update the resource map, rebuild
the output map via `_create_output_map` (which reads `self.template_dict` —
the field is never re-assigned here, so this is the pre-update tree),
append `UPDATE_COMPLETE`, set status, overwrite `role_arn`
unconditionally, and overwrite `tags` only when one was passed.  An error
carries the partially mutated stack, as the in-place mutation would leave
it. -/
def FakeStack.update (ext : Ext TD RM OM) (s0 : FakeStack TD RM OM)
    (template : String) (role_arn : Option String)
    (parameters : Option (List (String × String)))
    (tags : Option (List (String × String))) :
    Except (CfnError × FakeStack TD RM OM) (FakeStack TD RM OM) :=
  let s1 := s0.add_stack_event "UPDATE_IN_PROGRESS" (some "User Initiated") none
  let s2 := { s1 with template := template }
  match ext.json_loads template with
  | none => .error (.parseError, s2)
  | some nd =>
    match ext.resourceMapUpdate s2.resource_map nd parameters with
    | none => .error (.resolutionError, s2)
    | some rm =>
      let s3 := { s2 with resource_map := rm }
      match ext.outputMapCreate s3.resource_map s3.template_dict with
      | none => .error (.resolutionError, s3)
      | some om =>
        let s4 := ({ s3 with output_map := om }).add_stack_event
          "UPDATE_COMPLETE" none none
        let s5 := { s4 with status := "UPDATE_COMPLETE", role_arn := role_arn }
        .ok (match tags with
             | some ts => { s5 with tags := ts }
             | none => s5)

/-- `FakeStack.delete`: append `DELETE_IN_PROGRESS`, tear down the resource
map, append `DELETE_COMPLETE`, set status.  An error carries the partially
mutated stack. -/
def FakeStack.delete (ext : Ext TD RM OM) (s0 : FakeStack TD RM OM) :
    Except (CfnError × FakeStack TD RM OM) (FakeStack TD RM OM) :=
  let s1 := s0.add_stack_event "DELETE_IN_PROGRESS" (some "User Initiated") none
  match ext.resourceMapDelete s1.resource_map with
  | none => .error (.resolutionError, s1)
  | some rm =>
    let s2 := ({ s1 with resource_map := rm }).add_stack_event
      "DELETE_COMPLETE" none none
    .ok { s2 with status := "DELETE_COMPLETE" }

/-- `CloudFormationBackend`: the insertion-ordered active index and the
deleted index. -/
structure CloudFormationBackend (TD RM OM : Type) : Type where
  stacks' : List (String × FakeStack TD RM OM)
  deleted_stacks : List (String × FakeStack TD RM OM)

/-- The empty backend (`CloudFormationBackend.__init__`). -/
def emptyBackend : CloudFormationBackend TD RM OM :=
  { stacks' := [], deleted_stacks := [] }

/-- `CloudFormationBackend.create_stack`.  `stack_id` is the value
`generate_stack_id(name)` returned (external randomness passed in).  On
success the stack is inserted into the active index; a construction failure
registers nothing. -/
def create_stack (ext : Ext TD RM OM) (b : CloudFormationBackend TD RM OM)
    (stack_id name template : String) (parameters : List (String × String))
    (region_name : String) (notification_arns : Option (List String))
    (tags : Option (List (String × String))) (role_arn : Option String) :
    CloudFormationBackend TD RM OM × Except CfnError (FakeStack TD RM OM) :=
  match FakeStack.create ext stack_id name template parameters region_name
      notification_arns tags role_arn with
  | .error e => (b, .error e)
  | .ok s => ({ b with stacks' := insertA b.stacks' stack_id s }, .ok s)

/-- Python truthiness of the optional `name_or_stack_id` argument: absent
and the empty string are both falsy. -/
def keyTruthy : Option String → Bool
  | none => false
  | some s => !s.isEmpty

/-- `CloudFormationBackend.describe_stacks`: with a truthy key, first
name-or-id match over the active values, else (when the deleted index is
non-empty) id-only match over the deleted values, else
`ValidationError(key)`; with a falsy key, all active values. -/
def describe_stacks (b : CloudFormationBackend TD RM OM)
    (name_or_stack_id : Option String) :
    Except CfnError (List (FakeStack TD RM OM)) :=
  let activeValues := b.stacks'.map (·.2)
  if keyTruthy name_or_stack_id then
    let k := name_or_stack_id.getD ""
    match activeValues.find? (fun s => s.name == k || s.stack_id == k) with
    | some s => .ok [s]
    | none =>
      if !b.deleted_stacks.isEmpty then
        match (b.deleted_stacks.map (·.2)).find? (fun s => s.stack_id == k) with
        | some s => .ok [s]
        | none => .error (.validationError k)
      else .error (.validationError k)
  else .ok activeValues

/-- `CloudFormationBackend.list_stacks`: the active values. -/
def list_stacks (b : CloudFormationBackend TD RM OM) :
    List (FakeStack TD RM OM) :=
  b.stacks'.map (·.2)

/-- `CloudFormationBackend.get_stack`: id lookup over
`dict(deleted_stacks, **stacks)` (active entries win), then name lookup
over active values only; `none` when nothing matches (Python falls off the
end returning `None`). -/
def get_stack (b : CloudFormationBackend TD RM OM) (name_or_stack_id : String) :
    Option (FakeStack TD RM OM) :=
  match lookupA b.stacks' name_or_stack_id with
  | some s => some s
  | none =>
    match lookupA b.deleted_stacks name_or_stack_id with
    | some s => some s
    | none =>
      (b.stacks'.map (·.2)).find? (fun s => s.name == name_or_stack_id)

/-- Write the mutated stack object back into whichever index holds its id
(models Python's in-place mutation of the shared object; in every reachable
state an index key equals the stored stack's `stack_id`). -/
def writeBack (b : CloudFormationBackend TD RM OM) (k : String)
    (s : FakeStack TD RM OM) : CloudFormationBackend TD RM OM :=
  if (lookupA b.stacks' k).isSome then
    { b with stacks' := insertA b.stacks' k s }
  else if (lookupA b.deleted_stacks k).isSome then
    { b with deleted_stacks := insertA b.deleted_stacks k s }
  else b

/-- `CloudFormationBackend.update_stack`: resolve via `get_stack`, then call
the stack's `update`.  When nothing resolves, Python calls `.update` on
`None` and raises `AttributeError`.  A failing update still leaves its
partial in-place mutation in the index. -/
def update_stack (ext : Ext TD RM OM) (b : CloudFormationBackend TD RM OM)
    (name template : String) (role_arn : Option String)
    (parameters : Option (List (String × String)))
    (tags : Option (List (String × String))) :
    CloudFormationBackend TD RM OM × Except CfnError (FakeStack TD RM OM) :=
  match get_stack b name with
  | none => (b, .error .attributeError)
  | some s =>
    match FakeStack.update ext s template role_arn parameters tags with
    | .ok s' => (writeBack b s.stack_id s', .ok s')
    | .error (e, s') => (writeBack b s.stack_id s', .error e)

/-- The id branch of `CloudFormationBackend.delete_stack`: pop the entry,
run the stack's delete transition, file the stack in the deleted index
under its id.  If the delete transition raises, the stack has already been
popped and is never filed (it is simply dropped from both indexes). -/
def delete_by_id (ext : Ext TD RM OM) (b : CloudFormationBackend TD RM OM)
    (stack_id : String) :
    CloudFormationBackend TD RM OM × Except CfnError Unit :=
  match popA b.stacks' stack_id with
  | none => (b, .error .attributeError)
  | some (stack, rest) =>
    match FakeStack.delete ext stack with
    | .ok s' =>
      ({ stacks' := rest,
         deleted_stacks := insertA b.deleted_stacks s'.stack_id s' }, .ok ())
    | .error (e, _) => ({ b with stacks' := rest }, .error e)

/-- The name branch's loop over the snapshot of matching stack ids; each
recursive `delete_stack(stack.stack_id)` call finds its key in the active
index (index keys equal stack ids and are unique in every reachable
state), so it is the id branch `delete_by_id`.  An exception aborts the
loop, as in Python. -/
def delete_loop (ext : Ext TD RM OM) (b : CloudFormationBackend TD RM OM) :
    List String → CloudFormationBackend TD RM OM × Except CfnError Unit
  | [] => (b, .ok ())
  | stack_id :: rest =>
    match delete_by_id ext b stack_id with
    | (b', .ok _) => delete_loop ext b' rest
    | (b', .error e) => (b', .error e)

/-- `CloudFormationBackend.delete_stack`: if the key is an active index
key, delete by id; otherwise delete, by id, every stack in a snapshot of
the active values whose name matches (a miss is a silent no-op). -/
def delete_stack (ext : Ext TD RM OM) (b : CloudFormationBackend TD RM OM)
    (name_or_stack_id : String) :
    CloudFormationBackend TD RM OM × Except CfnError Unit :=
  if (lookupA b.stacks' name_or_stack_id).isSome then
    delete_by_id ext b name_or_stack_id
  else
    delete_loop ext b
      (b.stacks'.filterMap
        (fun p => if p.2.name == name_or_stack_id then some p.2.stack_id
                  else none))

/-! Association-list lemmas used by the registry proofs. -/

theorem lookupA_nil {α : Type} (k : String) :
    lookupA ([] : List (String × α)) k = none := rfl

theorem lookupA_cons {α : Type} (k' : String) (v : α)
    (l : List (String × α)) (k : String) :
    lookupA ((k', v) :: l) k = if k' == k then some v else lookupA l k := by
  by_cases h : k' == k <;> simp [lookupA, List.find?, h]

theorem mem_of_lookupA_eq_some {α : Type} {l : List (String × α)}
    {k : String} {v : α} (h : lookupA l k = some v) : (k, v) ∈ l := by
  induction l with
  | nil => simp [lookupA] at h
  | cons p rest ih =>
    obtain ⟨a, w⟩ := p
    rw [lookupA_cons] at h
    by_cases hk : a == k
    · rw [if_pos hk] at h
      have hke : a = k := by simpa using hk
      cases h
      rw [← hke]
      exact List.mem_cons_self _ _
    · rw [if_neg hk] at h
      exact List.mem_cons_of_mem _ (ih h)

theorem exists_lookupA_of_mem_keys {α : Type} {l : List (String × α)}
    {k : String} (h : k ∈ l.map (·.1)) : ∃ v, lookupA l k = some v := by
  induction l with
  | nil => simp at h
  | cons p rest ih =>
    obtain ⟨a, w⟩ := p
    rw [List.map_cons, List.mem_cons] at h
    by_cases hk : a == k
    · exact ⟨w, by rw [lookupA_cons, if_pos hk]⟩
    · have hmem : k ∈ rest.map (·.1) := by
        rcases h with h | h
        · exact absurd (by simpa using h.symm) (by simpa using hk)
        · exact h
      obtain ⟨v, hv⟩ := ih hmem
      exact ⟨v, by rw [lookupA_cons, if_neg hk, hv]⟩

theorem lookupA_eq_some_of_mem_nodup {α : Type} {l : List (String × α)}
    (hnd : (l.map (·.1)).Nodup) {p : String × α} (hp : p ∈ l) :
    lookupA l p.1 = some p.2 := by
  induction l with
  | nil => simp at hp
  | cons q rest ih =>
    obtain ⟨a, w⟩ := q
    rw [List.map_cons, List.nodup_cons] at hnd
    rcases List.mem_cons.mp hp with h | h
    · rw [h, lookupA_cons, if_pos (by simp)]
    · have hq : ¬(a == p.1) := by
        intro he
        refine hnd.1 ?_
        have hae : a = p.1 := by simpa using he
        exact List.mem_map.mpr ⟨p, h, hae.symm⟩
      rw [lookupA_cons, if_neg hq]
      exact ih hnd.2 h

theorem pair_eq_of_mem_nodup {α : Type} {l : List (String × α)}
    (hnd : (l.map (·.1)).Nodup) {p q : String × α} (hp : p ∈ l) (hq : q ∈ l)
    (h : p.1 = q.1) : p = q := by
  have h1 := lookupA_eq_some_of_mem_nodup hnd hp
  have h2 := lookupA_eq_some_of_mem_nodup hnd hq
  rw [h] at h1
  rw [h1] at h2
  have h3 : p.2 = q.2 := by simpa using h2
  exact Prod.ext h h3

theorem popA_eq {α : Type} {l : List (String × α)}
    (hnd : (l.map (·.1)).Nodup) {k : String} {v : α}
    (h : lookupA l k = some v) :
    popA l k = some (v, l.filter (fun p => !(p.1 == k))) := by
  induction l with
  | nil => simp [lookupA] at h
  | cons q rest ih =>
    obtain ⟨a, w⟩ := q
    rw [List.map_cons, List.nodup_cons] at hnd
    rw [lookupA_cons] at h
    by_cases hk : a == k
    · rw [if_pos hk] at h
      have hv : w = v := by simpa using h
      have hkeq : a = k := by simpa using hk
      have hrest : rest.filter (fun p => !(p.1 == k)) = rest := by
        apply List.filter_eq_self.mpr
        intro p hp
        have hne : p.1 ≠ k := by
          intro he
          refine hnd.1 ?_
          exact List.mem_map.mpr ⟨p, hp, by rw [he, hkeq]⟩
        simpa using hne
      simp only [popA]
      rw [if_pos hk, List.filter_cons, if_neg (by simpa using hk), hrest, hv]
    · rw [if_neg hk] at h
      simp only [popA]
      rw [if_neg hk, ih hnd.2 h, List.filter_cons,
        if_pos (by simpa using hk)]
      rfl

theorem lookupA_filter_ne {α : Type} (l : List (String × α))
    {j k : String} (h : j ≠ k) :
    lookupA (l.filter (fun p => !(p.1 == k))) j = lookupA l j := by
  induction l with
  | nil => rfl
  | cons q rest ih =>
    obtain ⟨a, w⟩ := q
    rw [List.filter_cons]
    by_cases hk : a == k
    · rw [if_neg (by simpa using hk)]
      have hj : ¬(a == j) := by
        have hae : a = k := by simpa using hk
        simp [hae, Ne.symm h]
      rw [lookupA_cons, if_neg hj]
      exact ih
    · rw [if_pos (by simpa using hk), lookupA_cons, lookupA_cons]
      by_cases hj : a == j
      · rw [if_pos hj, if_pos hj]
      · rw [if_neg hj, if_neg hj]
        exact ih

theorem nodup_keys_filter {α : Type} {l : List (String × α)}
    (hnd : (l.map (·.1)).Nodup) (f : String × α → Bool) :
    ((l.filter f).map (·.1)).Nodup :=
  hnd.sublist ((List.filter_sublist l).map (·.1))

theorem lookupA_insertA_self {α : Type} (l : List (String × α))
    (k : String) (v : α) : lookupA (insertA l k v) k = some v := by
  induction l with
  | nil => simp [insertA, lookupA_cons]
  | cons q rest ih =>
    obtain ⟨a, w⟩ := q
    simp only [insertA]
    by_cases hk : a == k
    · rw [if_pos hk, lookupA_cons, if_pos (by simp)]
    · rw [if_neg hk, lookupA_cons, if_neg hk]
      exact ih

theorem lookupA_insertA_ne {α : Type} (l : List (String × α))
    {j k : String} (v : α) (h : j ≠ k) :
    lookupA (insertA l k v) j = lookupA l j := by
  induction l with
  | nil =>
    simp only [insertA]
    rw [lookupA_cons, if_neg (by simpa using Ne.symm h), lookupA_nil]
  | cons q rest ih =>
    obtain ⟨a, w⟩ := q
    simp only [insertA]
    by_cases hk : a == k
    · have hae : a = k := by simpa using hk
      rw [if_pos hk, lookupA_cons, if_neg (by simpa using Ne.symm h),
        lookupA_cons, if_neg (by simpa [hae] using Ne.symm h)]
    · rw [if_neg hk, lookupA_cons, lookupA_cons]
      by_cases hj : a == j
      · rw [if_pos hj, if_pos hj]
      · rw [if_neg hj, if_neg hj]
        exact ih

/-! Characterizations of the three lifecycle transitions on success. -/

theorem getLast?_append_single {α : Type} (l : List α) (a : α) :
    (l ++ [a]).getLast? = some a := by
  exact List.getLast?_concat l

/-- What a successful `FakeStack.create` produces, read off `__init__`. -/
theorem create_ok_spec {ext : Ext TD RM OM} {sid n t : String}
    {ps : List (String × String)} {rn : String} {na : Option (List String)}
    {tg : Option (List (String × String))} {ra : Option String}
    {s : FakeStack TD RM OM}
    (h : FakeStack.create ext sid n t ps rn na tg ra = .ok s) :
    s.stack_id = sid ∧ s.name = n ∧ s.template = t
    ∧ parse_template ext t = .ok s.template_dict
    ∧ s.events = [mkStackEvent sid n "CREATE_IN_PROGRESS"
        (some "User Initiated") none,
      mkStackEvent sid n "CREATE_COMPLETE" none none]
    ∧ s.status = "CREATE_COMPLETE"
    ∧ s.role_arn = ra ∧ s.tags = tg.getD [] := by
  unfold FakeStack.create at h
  split at h
  · exact absurd h (by simp)
  · simp only [] at h
    split at h
    · exact absurd h (by simp)
    · split at h
      · exact absurd h (by simp)
      · cases h
        refine ⟨rfl, rfl, rfl, ?_, rfl, rfl, rfl, rfl⟩
        assumption

/-- What a successful `FakeStack.update` produces: id, name, parameters
untouched; template text replaced; `template_dict` NOT re-derived; exactly
the two update events appended; status set; `role_arn` overwritten
unconditionally; `tags` overwritten only when supplied. -/
theorem update_ok_spec {ext : Ext TD RM OM} {s : FakeStack TD RM OM}
    {t : String} {ra : Option String}
    {ps tg : Option (List (String × String))} {s' : FakeStack TD RM OM}
    (h : FakeStack.update ext s t ra ps tg = .ok s') :
    s'.stack_id = s.stack_id ∧ s'.name = s.name ∧ s'.template = t
    ∧ s'.template_dict = s.template_dict
    ∧ s'.events = s.events ++
        [mkStackEvent s.stack_id s.name "UPDATE_IN_PROGRESS"
           (some "User Initiated") none,
         mkStackEvent s.stack_id s.name "UPDATE_COMPLETE" none none]
    ∧ s'.status = "UPDATE_COMPLETE"
    ∧ s'.role_arn = ra
    ∧ (tg = none → s'.tags = s.tags)
    ∧ (∀ ts, tg = some ts → s'.tags = ts) := by
  unfold FakeStack.update at h
  simp only [FakeStack.add_stack_event] at h
  split at h
  · exact absurd h (by simp)
  · split at h
    · exact absurd h (by simp)
    · split at h
      · exact absurd h (by simp)
      · cases tg with
        | none =>
          cases h
          refine ⟨rfl, rfl, rfl, rfl, ?_, rfl, rfl, ?_, ?_⟩
          · rw [List.append_assoc]
            rfl
          · intro _
            rfl
          · intro ts hts
            cases hts
        | some ts =>
          cases h
          refine ⟨rfl, rfl, rfl, rfl, ?_, rfl, rfl, ?_, ?_⟩
          · rw [List.append_assoc]
            rfl
          · intro hn
            cases hn
          · intro ts' hts
            cases hts
            rfl

/-- What a successful `FakeStack.delete` produces. -/
theorem delete_ok_spec {ext : Ext TD RM OM} {s s' : FakeStack TD RM OM}
    (h : FakeStack.delete ext s = .ok s') :
    s'.stack_id = s.stack_id ∧ s'.name = s.name ∧ s'.template = s.template
    ∧ s'.events = s.events ++
        [mkStackEvent s.stack_id s.name "DELETE_IN_PROGRESS"
           (some "User Initiated") none,
         mkStackEvent s.stack_id s.name "DELETE_COMPLETE" none none]
    ∧ s'.status = "DELETE_COMPLETE" := by
  unfold FakeStack.delete at h
  simp only [FakeStack.add_stack_event] at h
  split at h
  · exact absurd h (by simp)
  · cases h
    refine ⟨rfl, rfl, rfl, ?_, rfl⟩
    rw [List.append_assoc]
    rfl

/-- `FakeStack.delete` succeeds whenever the resource-map teardown does. -/
theorem delete_isOk {ext : Ext TD RM OM}
    (hdel : ∀ rm, (ext.resourceMapDelete rm).isSome)
    (s : FakeStack TD RM OM) :
    ∃ s', FakeStack.delete ext s = .ok s' := by
  unfold FakeStack.delete
  obtain ⟨rm, hrm⟩ := Option.isSome_iff_exists.mp
    (hdel (s.add_stack_event "DELETE_IN_PROGRESS"
      (some "User Initiated") none).resource_map)
  simp only []
  rw [hrm]
  exact ⟨_, rfl⟩

/-! A concrete instantiation of the external collaborators, used to
evaluate the operations on closed inputs.  Trees, resource maps and output
maps are tagged strings; yaml accepts every text (it is the superset
format), json rejects the text "nojson". -/

/-- Concrete collaborators: `yaml.load` tags with `Y:`, `json.loads` tags
with `J:` but rejects `"nojson"`, the resolvers tag with `R:` / `O:` and
never fail. -/
def extW : Ext String String String :=
  { yaml_load := fun t => .ok ("Y:" ++ t)
    json_loads := fun t => if t = "nojson" then none else some ("J:" ++ t)
    resourceMapCreate := fun _ _ _ _ _ td => some ("R:" ++ td)
    resourceMapUpdate := fun _ td _ => some ("R:" ++ td)
    resourceMapDelete := fun rm => some rm
    outputMapCreate := fun _ td => some ("O:" ++ td)
    getDescription := fun _ => none }

/-- Fallback stack value for extracting `.ok` results on closed inputs. -/
def defaultStack : FakeStack String String String :=
  { stack_id := "", name := "", template := "", template_dict := ""
    parameters := [], region_name := "", notification_arns := []
    role_arn := none, tags := [], events := [], description := none
    resource_map := "", output_map := "", status := "" }

/-- A stack created through the embedded constructor. -/
def sW1 : FakeStack String String String :=
  (FakeStack.create extW "id1" "web" "tplA" [] "us-east-1"
      none none none).toOption.getD defaultStack

/-- A second stack with the same name and a distinct id. -/
def sW2 : FakeStack String String String :=
  (FakeStack.create extW "id2" "web" "tplA" [] "us-east-1"
      none none none).toOption.getD defaultStack

/-- `sW1` after a completed update. -/
def sW1upd : FakeStack String String String :=
  (FakeStack.update extW sW1 "tplB" (some "arn-1")
      none none).toOption.getD defaultStack

/-- `sW1` after a completed delete transition. -/
def sW1del : FakeStack String String String :=
  (FakeStack.delete extW sW1).toOption.getD defaultStack

/-- A backend holding one active stack and one deleted stack. -/
def bW3 : CloudFormationBackend String String String :=
  { stacks' := [("id1", sW1)]
    deleted_stacks := [("id9", (FakeStack.create extW "id9" "gone" "tplA" []
        "us-east-1" none none none).toOption.getD defaultStack)] }

/-- A backend with two active stacks sharing the name "web", built through
`create_stack`. -/
def bW8 : CloudFormationBackend String String String :=
  (create_stack extW
    (create_stack extW emptyBackend "id1" "web" "tplA" [] "us-east-1"
        none none none).1
    "id2" "web" "tplA" [] "us-east-1" none none none).1

/-- The backend left by deleting the only stack of a one-stack registry:
its stack now sits in the deleted index. -/
def bW10 : CloudFormationBackend String String String :=
  (delete_stack extW
    (create_stack extW emptyBackend "id1" "web" "tplA" [] "us-east-1"
        none none none).1
    "id1").1

/-- `sW1del` after a completed post-delete update. -/
def sW1delUpd : FakeStack String String String :=
  (FakeStack.update extW sW1del "tplC" none none none).toOption.getD
    defaultStack

/-- The stack's current status equals the `resource_status` of the last
event in its log. -/
def lastEventMatchesStatus (s : FakeStack TD RM OM) : Prop :=
  s.events.getLast?.map (·.resource_status) = some s.status

/-- Claim C1: the claim says a completed update re-derives
`template_dict` from the newly supplied template text so that output
resolution works against the new tree.  The code does not: it stores the
new text and feeds `json.loads(template)` to the resource map, but never
re-assigns `template_dict`, and `_create_output_map` then reads the stale
pre-update tree.  This run shows a stack created from "tplA" and updated
to "tplB" whose `template_dict` is still the parse of "tplA" and whose
output map was built from that stale tree, although both parsers accept
"tplB". -/
theorem update_keeps_stale_template_dict :
    FakeStack.update extW sW1 "tplB" (some "arn-1") none none = .ok sW1upd
    ∧ sW1upd.template = "tplB"
    ∧ sW1upd.template_dict = "Y:tplA"
    ∧ sW1upd.output_map = "O:Y:tplA"
    ∧ extW.json_loads "tplB" = some "J:tplB"
    ∧ parse_template extW "tplB" = .ok "Y:tplB"
    ∧ sW1upd.template_dict ≠ "Y:tplB"
    ∧ sW1upd.template_dict ≠ "J:tplB" := by
  refine ⟨rfl, rfl, rfl, rfl, rfl, rfl, ?_, ?_⟩ <;> decide

/-- Claim C2: after construction the event log has at least two entries,
and after construction and every completed update or delete the log is
non-empty and the stack's status equals the `resource_status` of its last
event. -/
theorem lifecycle_events_nonempty_last_matches_status (ext : Ext TD RM OM) :
    (∀ (sid n t : String) (ps : List (String × String)) (rn : String)
       (na : Option (List String)) (tg : Option (List (String × String)))
       (ra : Option String) (s : FakeStack TD RM OM),
       FakeStack.create ext sid n t ps rn na tg ra = .ok s →
       2 ≤ s.events.length ∧ s.events ≠ [] ∧ lastEventMatchesStatus s)
    ∧ (∀ (s : FakeStack TD RM OM) (t : String) (ra : Option String)
         (ps tg : Option (List (String × String))) (s' : FakeStack TD RM OM),
       FakeStack.update ext s t ra ps tg = .ok s' →
       s'.events ≠ [] ∧ lastEventMatchesStatus s')
    ∧ (∀ (s s' : FakeStack TD RM OM),
       FakeStack.delete ext s = .ok s' →
       s'.events ≠ [] ∧ lastEventMatchesStatus s') := by
  refine ⟨?_, ?_, ?_⟩
  · intro sid n t ps rn na tg ra s h
    obtain ⟨-, -, -, -, hev, hst, -, -⟩ := create_ok_spec h
    refine ⟨by rw [hev]; exact le_refl 2, by rw [hev]; simp, ?_⟩
    unfold lastEventMatchesStatus
    rw [hev, hst]
    rfl
  · intro s t ra ps tg s' h
    obtain ⟨-, -, -, -, hev, hst, -, -, -⟩ := update_ok_spec h
    refine ⟨by rw [hev]; simp, ?_⟩
    unfold lastEventMatchesStatus
    rw [hev, hst,
      show [mkStackEvent s.stack_id s.name "UPDATE_IN_PROGRESS"
              (some "User Initiated") none,
            mkStackEvent s.stack_id s.name "UPDATE_COMPLETE" none none]
         = [mkStackEvent s.stack_id s.name "UPDATE_IN_PROGRESS"
              (some "User Initiated") none]
           ++ [mkStackEvent s.stack_id s.name "UPDATE_COMPLETE" none none]
        from rfl,
      ← List.append_assoc, getLast?_append_single]
    rfl
  · intro s s' h
    obtain ⟨-, -, -, hev, hst⟩ := delete_ok_spec h
    refine ⟨by rw [hev]; simp, ?_⟩
    unfold lastEventMatchesStatus
    rw [hev, hst,
      show [mkStackEvent s.stack_id s.name "DELETE_IN_PROGRESS"
              (some "User Initiated") none,
            mkStackEvent s.stack_id s.name "DELETE_COMPLETE" none none]
         = [mkStackEvent s.stack_id s.name "DELETE_IN_PROGRESS"
              (some "User Initiated") none]
           ++ [mkStackEvent s.stack_id s.name "DELETE_COMPLETE" none none]
        from rfl,
      ← List.append_assoc, getLast?_append_single]
    rfl

/-- Witness for C2 at concrete runs of create, update, delete. -/
theorem lifecycle_events_nonempty_last_matches_status_witness :
    (2 ≤ sW1.events.length ∧ sW1.events ≠ [] ∧ lastEventMatchesStatus sW1)
    ∧ (sW1upd.events ≠ [] ∧ lastEventMatchesStatus sW1upd)
    ∧ (sW1del.events ≠ [] ∧ lastEventMatchesStatus sW1del) :=
  ⟨(lifecycle_events_nonempty_last_matches_status extW).1 "id1" "web" "tplA"
      [] "us-east-1" none none none sW1 rfl,
   (lifecycle_events_nonempty_last_matches_status extW).2.1 sW1 "tplB"
      (some "arn-1") none none sW1upd rfl,
   (lifecycle_events_nonempty_last_matches_status extW).2.2 sW1 sW1del rfl⟩

/-- Claim C4, counterexample to the claim as stated: on a key that
resolves to no stack, `update_stack` raises `AttributeError` (Python calls
`.update` on `None`), which is a crash, not the repository's
NotFound-style `ValidationError`. -/
theorem update_stack_missing_raises_attribute_error :
    (update_stack extW (emptyBackend : CloudFormationBackend String String
        String) "nosuch" "tplB" none none none).2 = .error .attributeError
    ∧ CfnError.attributeError.isNotFoundStyle = false
    ∧ (CfnError.validationError "nosuch").isNotFoundStyle = true :=
  ⟨rfl, rfl, rfl⟩

/-- Claim C4, amended: on a key that resolves to no stack `update_stack`
fails — but by raising `AttributeError` on the absent stack, not a
not-found style error — and on a key that resolves to a stack whose update
completes, it returns the updated stack. -/
theorem update_stack_amended_spec (ext : Ext TD RM OM)
    (b : CloudFormationBackend TD RM OM) (k t : String) (ra : Option String)
    (ps tg : Option (List (String × String))) :
    (get_stack b k = none →
       update_stack ext b k t ra ps tg = (b, .error .attributeError))
    ∧ (∀ s s', get_stack b k = some s →
         FakeStack.update ext s t ra ps tg = .ok s' →
         (update_stack ext b k t ra ps tg).2 = .ok s') := by
  constructor
  · intro h
    unfold update_stack
    rw [h]
  · intro s s' h1 h2
    unfold update_stack
    rw [h1]
    simp only []
    rw [h2]

/-- Witness for C4's amended statement on concrete inputs. -/
theorem update_stack_amended_spec_witness :
    (update_stack extW (emptyBackend : CloudFormationBackend String String
        String) "nosuch" "tplB" none none none
      = (emptyBackend, .error .attributeError))
    ∧ (update_stack extW bW3 "id1" "tplB" (some "arn-1") none none).2
      = .ok sW1upd :=
  ⟨(update_stack_amended_spec extW emptyBackend "nosuch" "tplB" none none
      none).1 rfl,
   (update_stack_amended_spec extW bW3 "id1" "tplB" (some "arn-1") none
      none).2 sW1 sW1upd rfl rfl⟩

/-- Claim C5: a key that is neither an active index key nor the name of
any active stack makes `delete_stack` a silent no-op: no error and both
indexes unchanged. -/
theorem delete_stack_unknown_key_noop (ext : Ext TD RM OM)
    (b : CloudFormationBackend TD RM OM) (k : String)
    (h1 : lookupA b.stacks' k = none)
    (h2 : ∀ p ∈ b.stacks', p.2.name ≠ k) :
    delete_stack ext b k = (b, .ok ()) := by
  unfold delete_stack
  rw [h1]
  have hfm : b.stacks'.filterMap
      (fun p => if p.2.name == k then some p.2.stack_id else none) = [] := by
    rw [List.filterMap_eq_nil_iff]
    intro p hp
    simp [h2 p hp]
  rw [hfm]
  rfl

/-- Witness for C5 on a backend that does not know the key. -/
theorem delete_stack_unknown_key_noop_witness :
    delete_stack extW bW3 "zzz" = (bW3, .ok ()) :=
  delete_stack_unknown_key_noop extW bW3 "zzz" rfl (by decide)

/-- Claim C6: a completed update preserves id and name, replaces the
template text, and appends exactly the two events `UPDATE_IN_PROGRESS`
then `UPDATE_COMPLETE` after the untouched prior log. -/
theorem update_frame_effect (ext : Ext TD RM OM) (s : FakeStack TD RM OM)
    (t : String) (ra : Option String)
    (ps tg : Option (List (String × String))) (s' : FakeStack TD RM OM)
    (h : FakeStack.update ext s t ra ps tg = .ok s') :
    s'.stack_id = s.stack_id ∧ s'.name = s.name ∧ s'.template = t
    ∧ s'.events = s.events ++
        [mkStackEvent s.stack_id s.name "UPDATE_IN_PROGRESS"
           (some "User Initiated") none,
         mkStackEvent s.stack_id s.name "UPDATE_COMPLETE" none none] := by
  obtain ⟨h1, h2, h3, -, hev, -, -, -, -⟩ := update_ok_spec h
  exact ⟨h1, h2, h3, hev⟩

/-- Witness for C6 at a concrete update. -/
theorem update_frame_effect_witness :
    sW1upd.stack_id = sW1.stack_id ∧ sW1upd.name = sW1.name
    ∧ sW1upd.template = "tplB"
    ∧ sW1upd.events = sW1.events ++
        [mkStackEvent sW1.stack_id sW1.name "UPDATE_IN_PROGRESS"
           (some "User Initiated") none,
         mkStackEvent sW1.stack_id sW1.name "UPDATE_COMPLETE" none none] :=
  update_frame_effect extW sW1 "tplB" (some "arn-1") none none sW1upd rfl

/-- Claim C7: a completed update always overwrites `role_arn` with the
supplied value (absent clears it); `tags` is overwritten only when a tag
set is supplied — absent leaves tags unchanged, an explicit empty mapping
clears them. -/
theorem update_role_arn_and_tags_policy (ext : Ext TD RM OM)
    (s : FakeStack TD RM OM) (t : String) (ra : Option String)
    (ps tg : Option (List (String × String))) (s' : FakeStack TD RM OM)
    (h : FakeStack.update ext s t ra ps tg = .ok s') :
    s'.role_arn = ra
    ∧ (tg = none → s'.tags = s.tags)
    ∧ (∀ ts, tg = some ts → s'.tags = ts)
    ∧ (tg = some [] → s'.tags = []) := by
  obtain ⟨-, -, -, -, -, -, hra, htn, hts⟩ := update_ok_spec h
  exact ⟨hra, htn, hts, hts []⟩

/-- Witness for C7: one update without tags (role cleared, tags kept) and
one update with an explicit empty tag set (tags cleared). -/
theorem update_role_arn_and_tags_policy_witness :
    (sW1upd.role_arn = some "arn-1" ∧ (sW1upd.tags = sW1.tags))
    ∧ ((FakeStack.update extW sW1 "tplB" none none
          (some [])).toOption.getD defaultStack).tags = [] := by
  refine ⟨⟨?_, ?_⟩, ?_⟩
  · exact (update_role_arn_and_tags_policy extW sW1 "tplB" (some "arn-1")
      none none sW1upd rfl).1
  · exact (update_role_arn_and_tags_policy extW sW1 "tplB" (some "arn-1")
      none none sW1upd rfl).2.1 rfl
  · have h := (update_role_arn_and_tags_policy extW sW1 "tplB" none none
      (some []) ((FakeStack.update extW sW1 "tplB" none none
        (some [])).toOption.getD defaultStack) rfl).2.2.2 rfl
    exact h

/-- Claim C9: `update` parses the supplied text with `json.loads` only —
no YAML fallback — so any text that `json.loads` rejects makes every
update fail with a parse error, even when `_parse_template` (the
creation path) accepts the same text and creation succeeds. -/
theorem update_parses_json_only (ext : Ext TD RM OM) (t : String) (d : TD)
    (hj : ext.json_loads t = none)
    (hy : parse_template ext t = .ok d) :
    (∀ (s : FakeStack TD RM OM) (ra : Option String)
       (ps tg : Option (List (String × String))),
       ∃ sp, FakeStack.update ext s t ra ps tg = .error (.parseError, sp))
    ∧ (∀ (sid n : String) (ps : List (String × String)) (rn : String)
         (na : Option (List String)) (tg : Option (List (String × String)))
         (ra : Option String) (rm : RM) (om : OM),
         ext.resourceMapCreate sid n ps (tg.getD []) rn d = some rm →
         ext.outputMapCreate rm d = some om →
         ∃ s, FakeStack.create ext sid n t ps rn na tg ra = .ok s) := by
  constructor
  · intro s ra ps tg
    unfold FakeStack.update
    simp only []
    rw [hj]
    exact ⟨_, rfl⟩
  · intro sid n ps rn na tg ra rm om h1 h2
    unfold FakeStack.create
    rw [hy]
    simp only []
    rw [h1]
    simp only []
    rw [h2]
    exact ⟨_, rfl⟩

/-- Witness for C9: "nojson" is accepted at creation through the yaml
path but every update with it fails with a parse error. -/
theorem update_parses_json_only_witness :
    extW.json_loads "nojson" = none
    ∧ parse_template extW "nojson" = .ok "Y:nojson"
    ∧ (∃ sp, FakeStack.update extW sW1 "nojson" none none none
        = .error (.parseError, sp))
    ∧ (∃ s, FakeStack.create extW "id7" "web" "nojson" [] "us-east-1"
        none none none = .ok s) :=
  ⟨rfl, rfl,
   (update_parses_json_only extW "nojson" "Y:nojson" rfl rfl).1
     sW1 none none none,
   (update_parses_json_only extW "nojson" "Y:nojson" rfl rfl).2
     "id7" "web" [] "us-east-1" none none none "R:Y:nojson" "O:Y:nojson"
     rfl rfl⟩

/-- Claim C10: on the post-delete state (the stack sits in the deleted
index, its id is gone from the active index), `update_stack` with that id
does not fail: `get_stack` resolves the deleted stack by id, the update
appends its two events, sets status `UPDATE_COMPLETE`, and the stack
remains in the deleted index (now updated in place). -/
theorem update_after_delete_ok (ext : Ext TD RM OM)
    (b : CloudFormationBackend TD RM OM) (id t : String)
    (s s' : FakeStack TD RM OM) (ra : Option String)
    (ps tg : Option (List (String × String)))
    (h1 : lookupA b.stacks' id = none)
    (h2 : lookupA b.deleted_stacks id = some s)
    (hid : s.stack_id = id)
    (hupd : FakeStack.update ext s t ra ps tg = .ok s') :
    update_stack ext b id t ra ps tg
      = ({ b with deleted_stacks := insertA b.deleted_stacks id s' }, .ok s')
    ∧ s'.status = "UPDATE_COMPLETE"
    ∧ lookupA (insertA b.deleted_stacks id s') id = some s'
    ∧ s'.events = s.events ++
        [mkStackEvent s.stack_id s.name "UPDATE_IN_PROGRESS"
           (some "User Initiated") none,
         mkStackEvent s.stack_id s.name "UPDATE_COMPLETE" none none] := by
  have hget : get_stack b id = some s := by
    unfold get_stack
    rw [h1, h2]
  obtain ⟨-, -, -, -, hev, hst, -, -, -⟩ := update_ok_spec hupd
  refine ⟨?_, hst, lookupA_insertA_self _ _ _, hev⟩
  unfold update_stack
  rw [hget]
  simp only []
  rw [hupd]
  simp only []
  unfold writeBack
  rw [hid, h1, h2]
  simp

/-- Witness for C10: delete the only stack of a registry, then update it
by id through the backend. -/
theorem update_after_delete_ok_witness :
    lookupA bW10.stacks' "id1" = none
    ∧ lookupA bW10.deleted_stacks "id1" = some sW1del
    ∧ (update_stack extW bW10 "id1" "tplC" none none none
        = ({ bW10 with deleted_stacks := insertA bW10.deleted_stacks "id1" sW1delUpd }, .ok sW1delUpd)
       ∧ sW1delUpd.status = "UPDATE_COMPLETE"
       ∧ lookupA (insertA bW10.deleted_stacks "id1" sW1delUpd) "id1"
           = some sW1delUpd
       ∧ sW1delUpd.events = sW1del.events ++
           [mkStackEvent sW1del.stack_id sW1del.name "UPDATE_IN_PROGRESS"
              (some "User Initiated") none,
            mkStackEvent sW1del.stack_id sW1del.name "UPDATE_COMPLETE"
              none none]) :=
  ⟨rfl, rfl,
   update_after_delete_ok extW bW10 "id1" "tplC" sW1del sW1delUpd
     none none none rfl rfl rfl rfl⟩

/-- Claim C3: `describe_stacks` with no key returns exactly the active
index values in insertion order; with a key it returns the first active
stack (in insertion order) matching by name or id as a one-element
sequence, else the deleted stack matching by id only (names of deleted
stacks are never consulted), else it fails with `ValidationError`
carrying the key; an `.ok` result is never a mix of active and deleted
stacks.  (The empty string is falsy in Python and counts as "no key".) -/
theorem describe_stacks_cases (b : CloudFormationBackend TD RM OM)
    (k : String) (hk : k ≠ "") :
    describe_stacks b none = .ok (b.stacks'.map (·.2))
    ∧ (∀ s, (b.stacks'.map (·.2)).find?
          (fun x => x.name == k || x.stack_id == k) = some s →
        describe_stacks b (some k) = .ok [s])
    ∧ (∀ s, (b.stacks'.map (·.2)).find?
          (fun x => x.name == k || x.stack_id == k) = none →
        (b.deleted_stacks.map (·.2)).find? (fun x => x.stack_id == k)
          = some s →
        describe_stacks b (some k) = .ok [s])
    ∧ ((b.stacks'.map (·.2)).find?
          (fun x => x.name == k || x.stack_id == k) = none →
        (b.deleted_stacks.map (·.2)).find? (fun x => x.stack_id == k)
          = none →
        describe_stacks b (some k) = .error (.validationError k))
    ∧ (∀ l, describe_stacks b (some k) = .ok l →
        (∀ x ∈ l, x ∈ b.stacks'.map (·.2))
        ∨ (∀ x ∈ l, x ∈ b.deleted_stacks.map (·.2))) := by
  have hkt : keyTruthy (some k) = true := by
    unfold keyTruthy
    simp only [Bool.not_eq_true']
    exact Bool.eq_false_iff.mpr (fun h => hk ((String.isEmpty_iff k).mp h))
  have hgetd : (some k).getD "" = k := rfl
  refine ⟨rfl, ?_, ?_, ?_, ?_⟩
  · intro s hs
    unfold describe_stacks
    rw [hkt]
    simp only [if_true, hgetd]
    rw [hs]
  · intro s hact hdel
    unfold describe_stacks
    rw [hkt]
    simp only [if_true, hgetd]
    rw [hact]
    have hne : ¬b.deleted_stacks.isEmpty := by
      intro he
      rw [List.isEmpty_iff.mp he] at hdel
      simp at hdel
    rw [if_pos (by simpa using hne)]
    rw [hdel]
  · intro hact hdel
    unfold describe_stacks
    rw [hkt]
    simp only [if_true, hgetd]
    rw [hact]
    by_cases he : b.deleted_stacks.isEmpty
    · rw [if_neg (by simpa using he)]
    · rw [if_pos (by simpa using he), hdel]
  · intro l hl
    unfold describe_stacks at hl
    rw [hkt] at hl
    simp only [if_true, hgetd] at hl
    rcases hact : (b.stacks'.map (·.2)).find?
        (fun x => x.name == k || x.stack_id == k) with _ | s
    · rw [hact] at hl
      by_cases he : b.deleted_stacks.isEmpty
      · rw [if_neg (by simpa using he)] at hl
        cases hl
      · rw [if_pos (by simpa using he)] at hl
        rcases hdel : (b.deleted_stacks.map (·.2)).find?
            (fun x => x.stack_id == k) with _ | s
        · rw [hdel] at hl
          cases hl
        · rw [hdel] at hl
          cases hl
          right
          intro x hx
          rw [List.mem_singleton.mp hx]
          exact List.mem_of_find?_eq_some hdel
    · rw [hact] at hl
      cases hl
      left
      intro x hx
      rw [List.mem_singleton.mp hx]
      exact List.mem_of_find?_eq_some hact

/-- Witness for C3 on a backend with one active and one deleted stack,
looking up the deleted stack's id. -/
theorem describe_stacks_cases_witness :
    describe_stacks bW3 none = .ok (bW3.stacks'.map (·.2))
    ∧ (∀ s, (bW3.stacks'.map (·.2)).find?
          (fun x => x.name == "id9" || x.stack_id == "id9") = some s →
        describe_stacks bW3 (some "id9") = .ok [s])
    ∧ (∀ s, (bW3.stacks'.map (·.2)).find?
          (fun x => x.name == "id9" || x.stack_id == "id9") = none →
        (bW3.deleted_stacks.map (·.2)).find? (fun x => x.stack_id == "id9")
          = some s →
        describe_stacks bW3 (some "id9") = .ok [s])
    ∧ ((bW3.stacks'.map (·.2)).find?
          (fun x => x.name == "id9" || x.stack_id == "id9") = none →
        (bW3.deleted_stacks.map (·.2)).find? (fun x => x.stack_id == "id9")
          = none →
        describe_stacks bW3 (some "id9") = .error (.validationError "id9"))
    ∧ (∀ l, describe_stacks bW3 (some "id9") = .ok l →
        (∀ x ∈ l, x ∈ bW3.stacks'.map (·.2))
        ∨ (∀ x ∈ l, x ∈ bW3.deleted_stacks.map (·.2))) :=
  describe_stacks_cases bW3 "id9" (by decide)

/-- The id snapshot the name branch of `delete_stack` iterates over is the
key list of the name-matching entries (index keys equal stack ids). -/
theorem filterMap_name_eq (l : List (String × FakeStack TD RM OM))
    (k : String) (hwf : ∀ p ∈ l, p.1 = p.2.stack_id) :
    l.filterMap (fun p => if p.2.name == k then some p.2.stack_id else none)
      = (l.filter (fun p => p.2.name == k)).map (·.1) := by
  induction l with
  | nil => rfl
  | cons q rest ih =>
    have hq := hwf q (List.mem_cons_self _ _)
    have hrest : ∀ p ∈ rest, p.1 = p.2.stack_id :=
      fun p hp => hwf p (List.mem_cons_of_mem _ hp)
    cases hn : (q.2.name == k) with
    | true =>
      simp only [List.filterMap_cons, List.filter_cons, hn, if_true,
        List.map_cons, ih hrest, hq]
    | false =>
      simp only [List.filterMap_cons, List.filter_cons, hn, if_false,
        ih hrest]
      simp

/-- One pass of `delete_by_id` on a present key, under unique well-keyed
entries and a teardown that succeeds. -/
theorem delete_by_id_spec (ext : Ext TD RM OM)
    (b : CloudFormationBackend TD RM OM) (id : String)
    (s : FakeStack TD RM OM)
    (hs : lookupA b.stacks' id = some s)
    (hnd : (b.stacks'.map (·.1)).Nodup)
    (hwf : ∀ p ∈ b.stacks', p.1 = p.2.stack_id)
    (s' : FakeStack TD RM OM)
    (hdel : FakeStack.delete ext s = .ok s') :
    delete_by_id ext b id
      = ({ stacks' := b.stacks'.filter (fun p => !(p.1 == id)),
           deleted_stacks := insertA b.deleted_stacks id s' }, .ok ()) := by
  have hsid : s.stack_id = id :=
    (hwf (id, s) (mem_of_lookupA_eq_some hs)).symm
  have hsid' : s'.stack_id = id := (delete_ok_spec hdel).1.trans hsid
  unfold delete_by_id
  rw [popA_eq hnd hs]
  simp only []
  rw [hdel]
  simp only []
  rw [hsid']

/-- The loop of the name branch of `delete_stack`: with distinct present
ids and an always-succeeding teardown, every listed stack is popped from
the active index, run through its delete transition, and filed in the
deleted index under its id; entries with other ids are untouched. -/
theorem delete_loop_spec (ext : Ext TD RM OM)
    (hdel : ∀ rm, (ext.resourceMapDelete rm).isSome) :
    ∀ (ids : List String) (b : CloudFormationBackend TD RM OM),
    ids.Nodup →
    (∀ p ∈ b.stacks', p.1 = p.2.stack_id) →
    (b.stacks'.map (·.1)).Nodup →
    (∀ id ∈ ids, ∃ v, lookupA b.stacks' id = some v) →
    ∃ b', delete_loop ext b ids = (b', .ok ())
      ∧ b'.stacks' = b.stacks'.filter (fun p => !(ids.contains p.1))
      ∧ (∀ id ∈ ids, ∃ s s', lookupA b.stacks' id = some s
          ∧ FakeStack.delete ext s = .ok s'
          ∧ lookupA b'.deleted_stacks id = some s')
      ∧ (∀ j, j ∉ ids →
          lookupA b'.deleted_stacks j = lookupA b.deleted_stacks j) := by
  intro ids
  induction ids with
  | nil =>
    intro b _ _ _ _
    refine ⟨b, rfl, ?_, by simp, fun j _ => rfl⟩
    simp
  | cons id rest ih =>
    intro b hnd hwf hndk hpres
    have hidid : id ∉ rest := (List.nodup_cons.mp hnd).1
    obtain ⟨s, hs⟩ := hpres id (List.mem_cons_self _ _)
    obtain ⟨s', hs'⟩ := delete_isOk hdel s
    have hstep := delete_by_id_spec ext b id s hs hndk hwf s' hs'
    have hwf1 : ∀ p ∈ b.stacks'.filter (fun p => !(p.1 == id)),
        p.1 = p.2.stack_id :=
      fun p hp => hwf p (List.mem_of_mem_filter hp)
    have hndk1 : ((b.stacks'.filter (fun p => !(p.1 == id))).map
        (·.1)).Nodup := nodup_keys_filter hndk _
    have hpres1 : ∀ j ∈ rest, ∃ v,
        lookupA (b.stacks'.filter (fun p => !(p.1 == id))) j = some v := by
      intro j hj
      have hjne : j ≠ id := fun he => hidid (he ▸ hj)
      rw [lookupA_filter_ne _ hjne]
      exact hpres j (List.mem_cons_of_mem _ hj)
    obtain ⟨b', hloop, hstacks, hdeleted, hpreserve⟩ :=
      ih { stacks' := b.stacks'.filter (fun p => !(p.1 == id)),
           deleted_stacks := insertA b.deleted_stacks id s' }
        (List.nodup_cons.mp hnd).2 hwf1 hndk1 hpres1
    refine ⟨b', ?_, ?_, ?_, ?_⟩
    · unfold delete_loop
      rw [hstep]
      exact hloop
    · rw [hstacks]
      simp only []
      rw [List.filter_filter]
      apply List.filter_congr
      intro p hp
      show (!rest.contains p.1 && !(p.1 == id)) = (!((id :: rest).contains p.1))
      rw [show ((id :: rest).contains p.1)
            = (p.1 == id || rest.contains p.1) from rfl,
        Bool.not_or, Bool.and_comm]
    · intro j hj
      rcases List.mem_cons.mp hj with he | hm
      · subst he
        refine ⟨s, s', hs, hs', ?_⟩
        rw [hpreserve j hidid]
        exact lookupA_insertA_self _ _ _
      · obtain ⟨s2, s2', hl1, hd2, hld⟩ := hdeleted j hm
        have hjne : j ≠ id := fun he => hidid (he ▸ hm)
        rw [lookupA_filter_ne _ hjne] at hl1
        exact ⟨s2, s2', hl1, hd2, hld⟩
    · intro j hj
      have hj1 : j ≠ id := fun he => hj (he ▸ List.mem_cons_self _ _)
      have hj2 : j ∉ rest := fun m => hj (List.mem_cons_of_mem _ m)
      rw [hpreserve j hj2]
      exact lookupA_insertA_ne _ _ hj1

/-- Claim C8: `delete_stack` on a name (not an active id) deletes every
active stack with that name: each is removed from the active index, runs
its delete transition to `DELETE_COMPLETE`, and is filed in the deleted
index under its id — in particular two active stacks sharing the name are
both removed and both retrievable from the deleted index by id. -/
theorem delete_stack_by_name_deletes_all (ext : Ext TD RM OM)
    (b : CloudFormationBackend TD RM OM) (k : String)
    (hk : lookupA b.stacks' k = none)
    (hwf : ∀ p ∈ b.stacks', p.1 = p.2.stack_id)
    (hnd : (b.stacks'.map (·.1)).Nodup)
    (hdel : ∀ rm, (ext.resourceMapDelete rm).isSome) :
    ∃ b', delete_stack ext b k = (b', .ok ())
      ∧ b'.stacks' = b.stacks'.filter (fun p => !(p.2.name == k))
      ∧ ∀ p ∈ b.stacks', p.2.name = k →
          ∃ s', FakeStack.delete ext p.2 = .ok s'
            ∧ lookupA b'.deleted_stacks p.2.stack_id = some s'
            ∧ s'.status = "DELETE_COMPLETE"
            ∧ s'.stack_id = p.2.stack_id ∧ s'.name = p.2.name := by
  have hids := filterMap_name_eq b.stacks' k hwf
  have hidsnd : (b.stacks'.filterMap
      (fun p => if p.2.name == k then some p.2.stack_id else none)).Nodup :=
    by rw [hids]; exact nodup_keys_filter hnd _
  have hpres : ∀ id ∈ (b.stacks'.filterMap
      (fun p => if p.2.name == k then some p.2.stack_id else none)),
      ∃ v, lookupA b.stacks' id = some v := by
    intro id hid
    rw [hids] at hid
    obtain ⟨p, hp, hpe⟩ := List.mem_map.mp hid
    exact hpe ▸ exists_lookupA_of_mem_keys
      (List.mem_map_of_mem _ (List.mem_of_mem_filter hp))
  obtain ⟨b', hloop, hstacks, hdeleted, -⟩ :=
    delete_loop_spec ext hdel _ b hidsnd hwf hnd hpres
  have hcontain : ∀ p ∈ b.stacks',
      ((b.stacks'.filterMap
        (fun p => if p.2.name == k then some p.2.stack_id else none)).contains
          p.1) = (p.2.name == k) := by
    intro p hp
    rw [hids]
    cases hn : (p.2.name == k) with
    | true =>
      exact List.elem_eq_true_of_mem
        (List.mem_map_of_mem _ (List.mem_filter.mpr ⟨hp, hn⟩))
    | false =>
      have hnm : p.1 ∉ (b.stacks'.filter
          (fun p => p.2.name == k)).map (·.1) := by
        intro hmem
        obtain ⟨q, hq, hqe⟩ := List.mem_map.mp hmem
        have hq1 : q ∈ b.stacks' := List.mem_of_mem_filter hq
        have hqp : q = p := pair_eq_of_mem_nodup hnd hq1 hp hqe
        rw [hqp] at hq
        have hcon := (List.mem_filter.mp hq).2
        rw [hn] at hcon
        cases hcon
      simpa using hnm
  refine ⟨b', ?_, ?_, ?_⟩
  · unfold delete_stack
    rw [hk]
    simp only [Option.isSome_none, Bool.false_eq_true, if_false]
    exact hloop
  · rw [hstacks]
    apply List.filter_congr
    intro p hp
    show (!((b.stacks'.filterMap
        (fun p => if p.2.name == k then some p.2.stack_id else none)).contains
          p.1)) = (!(p.2.name == k))
    rw [hcontain p hp]
  · intro p hp hn
    have hmemids : p.2.stack_id ∈ (b.stacks'.filterMap
        (fun p => if p.2.name == k then some p.2.stack_id else none)) := by
      rw [hids, ← hwf p hp]
      exact List.mem_map_of_mem _
        (List.mem_filter.mpr ⟨hp, by simp [hn]⟩)
    obtain ⟨s, s', hlook, hdel', hlookdel⟩ := hdeleted _ hmemids
    have hlp : lookupA b.stacks' p.2.stack_id = some p.2 := by
      rw [← hwf p hp]
      exact lookupA_eq_some_of_mem_nodup hnd hp
    rw [hlp] at hlook
    have hsp : s = p.2 := by
      have := hlook.symm
      simpa using this
    rw [hsp] at hdel'
    obtain ⟨hid', hname', -, -, hst'⟩ := delete_ok_spec hdel'
    exact ⟨s', hdel', hlookdel, hst', hid', hname'⟩

/-- Witness for C8: two active stacks both named "web"; deleting by name
removes both and files both in the deleted index by id. -/
theorem delete_stack_by_name_deletes_all_witness :
    lookupA bW8.stacks' "web" = none
    ∧ (∀ rm : String, (extW.resourceMapDelete rm).isSome)
    ∧ (∃ b', delete_stack extW bW8 "web" = (b', .ok ())
        ∧ b'.stacks' = bW8.stacks'.filter (fun p => !(p.2.name == "web"))
        ∧ ∀ p ∈ bW8.stacks', p.2.name = "web" →
            ∃ s', FakeStack.delete extW p.2 = .ok s'
              ∧ lookupA b'.deleted_stacks p.2.stack_id = some s'
              ∧ s'.status = "DELETE_COMPLETE"
              ∧ s'.stack_id = p.2.stack_id ∧ s'.name = p.2.name) :=
  ⟨rfl, fun _ => rfl,
   delete_stack_by_name_deletes_all extW bW8 "web" rfl (by decide)
     (by decide) (fun _ => rfl)⟩

end Moto
